import Mathlib

/-!
Verification of the cooperative future/scheduler core in `src/coopfuture.hpp`
(namespace `fut`). The C++ header is shallowly embedded: each Future is a
tagged union delimited by `enum class State` (the union member `cons` —
the waiter list — is valid only in `UNRESOLVED`, `result` only in `SUCCESS`,
`error` only in `FAILURE`), the scheduler's `ready` and `tasks` deques are
lists, and suspended `boost::context::fcontext_t` handles are abstract
identifiers. Exceptions are explicit values: the embedding distinguishes a
`FutureAlreadyFulfilled` thrown *by value* from the heap-pointer form
`throw new FutureAlreadyFulfilled` that `FutureBase::complete` actually
executes, because C++ catch clauses for the class type do not match the
pointer type and several behaviours of the header depend on exactly that.
Mutation is modelled by state passing, and the order in which a completion
operation touches the scheduler and the Future is recorded in an explicit
event trace.
-/

namespace CoopFuture

/-- An abstract handle standing for one suspended `boost::context::fcontext_t`. -/
abbrev Ctx := Nat

/-- The exception objects that can travel through the header's try/catch
clauses, classified by how a C++ handler matches them:
`fafValue` is a `FutureAlreadyFulfilled` thrown by value (matched by
`catch (FutureAlreadyFulfilled)`), `fafPtr` is the heap pointer that
`FutureBase::complete` throws via `throw new FutureAlreadyFulfilled`
(matched only by `catch (...)`), `declared e` is an exception matched by
`catch (E e)` for the declared error type `E`, and `other` is anything
else (matched only by `catch (...)`). -/
inductive CppExn (E : Type) where
  | fafValue
  | fafPtr
  | declared (e : E)
  | other
deriving DecidableEq, Repr

/-- The `State` tags a completion operation can install (`enum class State`
minus the initial `UNRESOLVED`). -/
inductive STag where
  | successT
  | failureT
  | unexpectedT
deriving DecidableEq, Repr

/-- One observable step of a completion operation: `notify ws` is the call
`scheduler.notifyReady(contents.cons)` with the snapshotted waiter list `ws`,
`state t` is the assignment `state = State::...`, and `payload` is the
assignment into the `Contents` union (`contents.result = ...` or
`contents.error = ...`). -/
inductive CEvent where
  | notify (ws : List Ctx)
  | state (t : STag)
  | payload
deriving DecidableEq, Repr

/-- `Future<V, E>`: the tagged union of `FutureBase`. The `Contents` union
is delimited by the `State` tag, so the waiter list (`contents.cons`) exists
exactly in the `UNRESOLVED` state; `unresolved ws` lists the suspended
contexts of the `FContextCons` chain head first. -/
inductive FState (V E : Type) where
  | unresolved (ws : List Ctx)
  | success (v : V)
  | failure (e : E)
  | unexpected
deriving DecidableEq, Repr

/-- The waiter list reachable from a Future: the `cons` chain in
`UNRESOLVED`, nothing in any other state (the union member is dead there). -/
def futWaiters {V E : Type} : FState V E → List Ctx
  | FState.unresolved ws => ws
  | _ => []

/-- `Scheduler::notifyReady`: walk the `FContextCons` list and
`ready.push_back` each contained context in list order. -/
def notifyReady (ready : List Ctx) (cons : List Ctx) : List Ctx :=
  match cons with
  | [] => ready
  | c :: rest => notifyReady (ready ++ [c]) rest

theorem notifyReady_eq_append : ∀ (cons ready : List Ctx), notifyReady ready cons = ready ++ cons
  | [], ready => by simp [notifyReady]
  | c :: rest, ready => by
      rw [notifyReady, notifyReady_eq_append rest (ready ++ [c])]
      simp

/-- The result of one completion operation on a Future owned by a scheduler:
the Future's new tagged-union value, the scheduler's `ready` queue after the
operation, the ordered trace of observable steps the operation performed, and
the exception it threw, if any (a thrown exception aborts the operation, so
on the `thrown = some _` path nothing was written: `fut` and `ready` are the
inputs unchanged). -/
structure FutOpRes (V E : Type) where
  fut : FState V E
  ready : List Ctx
  trace : List CEvent
  thrown : Option (CppExn E)
deriving DecidableEq, Repr

/-- `FutureBase::complete`: if the state is not `UNRESOLVED`, execute
`throw new FutureAlreadyFulfilled` (the pointer form!); otherwise, if the
waiter list is non-empty, hand it to `scheduler.notifyReady`. Returns the
updated `ready` queue and the trace of the `notifyReady` call. -/
def complete {V E : Type} (ready : List Ctx) (f : FState V E) :
    Except (CppExn E) (List Ctx × List CEvent) :=
  match f with
  | FState.unresolved ws =>
      Except.ok ((if ws.isEmpty then ready else notifyReady ready ws),
                 (if ws.isEmpty then ([] : List CEvent) else [CEvent.notify ws]))
  | _ => Except.error CppExn.fafPtr

/-- `Future<V,E>::setResult(v)`: `complete(); state = State::SUCCESS;
contents.result = newResult;`. The throw in `complete` precedes both
assignments, so a failed call changes nothing. -/
def setResult {V E : Type} (ready : List Ctx) (f : FState V E) (v : V) : FutOpRes V E :=
  match complete ready f with
  | Except.error ex => ⟨f, ready, [], some ex⟩
  | Except.ok pr =>
      ⟨FState.success v, pr.1, pr.2 ++ [CEvent.state STag.successT, CEvent.payload], none⟩

/-- `FutureBase::setError(e)`: `complete(); state = State::FAILURE;
contents.error = newError;`. -/
def setError {V E : Type} (ready : List Ctx) (f : FState V E) (e : E) : FutOpRes V E :=
  match complete ready f with
  | Except.error ex => ⟨f, ready, [], some ex⟩
  | Except.ok pr =>
      ⟨FState.failure e, pr.1, pr.2 ++ [CEvent.state STag.failureT, CEvent.payload], none⟩

/-- `FutureBase::setUnexpected()`: `complete(); state = State::UNEXPECTED;`
— no payload is written. -/
def setUnexpected {V E : Type} (ready : List Ctx) (f : FState V E) : FutOpRes V E :=
  match complete ready f with
  | Except.error ex => ⟨f, ready, [], some ex⟩
  | Except.ok pr =>
      ⟨FState.unexpected, pr.1, pr.2 ++ [CEvent.state STag.unexpectedT], none⟩

/-- `Future<void,E>::setResult()` (the unit specialization): `complete();
state = State::SUCCESS;` — no payload is written. -/
def setResultVoid {E : Type} (ready : List Ctx) (f : FState Unit E) : FutOpRes Unit E :=
  match complete ready f with
  | Except.error ex => ⟨f, ready, [], some ex⟩
  | Except.ok pr =>
      ⟨FState.success (), pr.1, pr.2 ++ [CEvent.state STag.successT], none⟩

theorem setResult_unresolved_ready {V E : Type} (ready ws : List Ctx) (v : V) :
    (setResult (E := E) ready (FState.unresolved ws) v).ready = ready ++ ws := by
  cases ws with
  | nil => simp [setResult, complete]
  | cons w ws => simp [setResult, complete, notifyReady_eq_append]

theorem setError_unresolved_ready {V E : Type} (ready ws : List Ctx) (e : E) :
    (setError (V := V) ready (FState.unresolved ws) e).ready = ready ++ ws := by
  cases ws with
  | nil => simp [setError, complete]
  | cons w ws => simp [setError, complete, notifyReady_eq_append]

theorem setUnexpected_unresolved_ready {V E : Type} (ready ws : List Ctx) :
    (setUnexpected (V := V) (E := E) ready (FState.unresolved ws)).ready = ready ++ ws := by
  cases ws with
  | nil => simp [setUnexpected, complete]
  | cons w ws => simp [setUnexpected, complete, notifyReady_eq_append]

theorem setResultVoid_unresolved_ready {E : Type} (ready ws : List Ctx) :
    (setResultVoid (E := E) ready (FState.unresolved ws)).ready = ready ++ ws := by
  cases ws with
  | nil => simp [setResultVoid, complete]
  | cons w ws => simp [setResultVoid, complete, notifyReady_eq_append]

/-- What an `await` call delivers to its caller: `val v` is a normal return
of the stored result, `err e` is `throw contents.error`, and
`unexpectedCall` is the call to `std::unexpected()` (which does not return). -/
inductive AwaitOutcome (V E : Type) where
  | val (v : V)
  | err (e : E)
  | unexpectedCall
deriving DecidableEq, Repr

/-- One dispatch of the `switch (state)` in `Future<V,E>::await` (the
`Future<void,E>` specialization is the `V = Unit` instance of the same
switch): `SUCCESS` returns `contents.result`, `FAILURE` throws
`contents.error`, `UNEXPECTED` calls `std::unexpected()`, and `UNRESOLVED`
builds the stack node `FContextCons cons` for the calling context `c`, links
it in at the head (`cons.nextPointer = contents.cons; contents.cons = &cons;`)
and suspends — `Sum.inr` carries the Future as it stands when
`scheduler.waitUntilReady(&cons.context)` is entered. -/
def awaitDispatch {V E : Type} (c : Ctx) (f : FState V E) :
    AwaitOutcome V E ⊕ FState V E :=
  match f with
  | FState.success v => Sum.inl (AwaitOutcome.val v)
  | FState.failure e => Sum.inl (AwaitOutcome.err e)
  | FState.unexpected => Sum.inl AwaitOutcome.unexpectedCall
  | FState.unresolved ws => Sum.inr (FState.unresolved (c :: ws))

/-- `Future<V,E>::await`, fuel-indexed. `env` is the effect of the blocked
interval: it maps the Future as left at suspension to the Future as found at
resumption (while the caller sits inside `waitUntilReady`, the resolution
loop runs tasks and completions that rewrite the Future). On resumption the
source re-dispatches with `return await();`, which is the recursive call. -/
def await {V E : Type} (env : FState V E → FState V E) :
    Nat → Ctx → FState V E → Option (AwaitOutcome V E)
  | 0, _, _ => none
  | fuel + 1, c, f =>
      match awaitDispatch c f with
      | Sum.inl o => some o
      | Sum.inr f' => await env fuel c (env f')

/-- The waiter list produced by a sequence of awaiters suspending on the
same Future in the given order, each one running the `UNRESOLVED` branch of
`await` once. -/
def suspendAll {V E : Type} (as : List Ctx) (f : FState V E) : FState V E :=
  as.foldl
    (fun st a =>
      match awaitDispatch a st with
      | Sum.inl _ => st
      | Sum.inr st' => st')
    f

theorem suspendAll_unresolved {V E : Type} :
    ∀ (as ws : List Ctx),
      suspendAll (V := V) (E := E) as (FState.unresolved ws)
        = FState.unresolved (as.reverse ++ ws)
  | [], ws => by simp [suspendAll]
  | a :: as, ws => by
      show suspendAll (V := V) (E := E) as (FState.unresolved (a :: ws))
        = FState.unresolved ((a :: as).reverse ++ ws)
      rw [suspendAll_unresolved as (a :: ws)]
      simp

/-- How one run of the spawned callable `call` ends: a normal return with
value `v`, or a throw of the given exception object. -/
inductive TaskOutcome (V E : Type) where
  | ret (v : V)
  | raise (ex : CppExn E)
deriving DecidableEq, Repr

/-- The handler ladder of the closure built by `Scheduler::spawn`:
`catch (FutureAlreadyFulfilled faf) { throw faf; }` matches only the
by-value form and rethrows it; `catch (E e) { fut->setError(e); }` matches
the declared error type; `catch (...) ` — which is what a thrown
`FutureAlreadyFulfilled*` pointer falls into — runs `fut->setUnexpected()`.
Exceptions thrown from inside a handler propagate out of the closure. -/
def handleClauses {V E : Type} (ready : List Ctx) (ex : CppExn E) (f : FState V E) :
    FutOpRes V E :=
  match ex with
  | CppExn.fafValue => ⟨f, ready, [], some CppExn.fafValue⟩
  | CppExn.declared e => setError ready f e
  | CppExn.fafPtr => setUnexpected ready f
  | CppExn.other => setUnexpected ready f

/-- The task closure that the non-void `Scheduler::spawn` pushes onto
`tasks`: `try { fut->setResult(call()); }` followed by the handler ladder.
If `call` returns `v`, `setResult(v)` runs and any exception it throws (the
pointer form, when the Future was already fulfilled) goes through the same
handlers. -/
def spawnClosure {V E : Type} (out : TaskOutcome V E) (ready : List Ctx) (f : FState V E) :
    FutOpRes V E :=
  match out with
  | TaskOutcome.ret v =>
      let r := setResult ready f v
      match r.thrown with
      | none => r
      | some ex => handleClauses r.ready ex r.fut
  | TaskOutcome.raise ex => handleClauses ready ex f

/-- The task closure of the void overload of `Scheduler::spawn`:
`try { call(); fut->setResult(); }` with the same handler ladder. -/
def spawnClosureVoid {E : Type} (out : TaskOutcome Unit E) (ready : List Ctx)
    (f : FState Unit E) : FutOpRes Unit E :=
  match out with
  | TaskOutcome.ret _ =>
      let r := setResultVoid ready f
      match r.thrown with
      | none => r
      | some ex => handleClauses r.ready ex r.fut
  | TaskOutcome.raise ex => handleClauses ready ex f

/-- `Scheduler::spawn` itself: allocate a fresh Future (`UNRESOLVED`, empty
waiter list) and `tasks.push_back` the closure; the queue grows at the back. -/
def spawn {V E : Type} (tasks : List (TaskOutcome V E)) (out : TaskOutcome V E) :
    List (TaskOutcome V E) × FState V E :=
  (tasks ++ [out], FState.unresolved [])

/-- The two scheduler queues that `Scheduler::loop` polls: `ready` holds
contexts eligible to resume, `tasks` the pending spawned closures (`τ` is an
abstract task name; its effect is supplied separately). -/
structure Sched (τ : Type) where
  ready : List Ctx
  tasks : List τ
deriving DecidableEq, Repr

/-- One action of a resolution-loop iteration: running the popped front task
or invoking `innerCallback` (the progress step). -/
inductive LAct (τ : Type) where
  | ranTask (t : τ)
  | ranCallback
deriving DecidableEq, Repr

/-- How the polling `while (ready.size() == 0)` of `Scheduler::loop` ends:
`normal` is the ordinary exit with the final queues (the while condition just
turned false); `caughtFAF` is the `catch (FutureAlreadyFulfilled)` branch
(diagnostic on `std::cerr`, then `std::terminate()`); `uncaught e` is an
exception that matched no clause escaping the `try` — `loop()` is `noexcept`,
so the process terminates with no diagnostic; `fuelOut` expended the fuel.
Each carries the trace of actions run so far. -/
inductive PollExit (τ E : Type) where
  | normal (s : Sched τ) (tr : List (LAct τ))
  | caughtFAF (tr : List (LAct τ))
  | uncaught (e : CppExn E) (tr : List (LAct τ))
  | fuelOut (tr : List (LAct τ))
deriving DecidableEq, Repr

/-- Prepend an action to the trace of a poll result. -/
def PollExit.addAct {τ E : Type} (a : LAct τ) : PollExit τ E → PollExit τ E
  | PollExit.normal s tr => PollExit.normal s (a :: tr)
  | PollExit.caughtFAF tr => PollExit.caughtFAF (a :: tr)
  | PollExit.uncaught e tr => PollExit.uncaught e (a :: tr)
  | PollExit.fuelOut tr => PollExit.fuelOut (a :: tr)

/-- The trace of a poll result. -/
def PollExit.trace {τ E : Type} : PollExit τ E → List (LAct τ)
  | PollExit.normal _ tr => tr
  | PollExit.caughtFAF tr => tr
  | PollExit.uncaught _ tr => tr
  | PollExit.fuelOut tr => tr

/-- The first action a poll run performed, if any. -/
def PollExit.firstAct {τ E : Type} (p : PollExit τ E) : Option (LAct τ) :=
  p.trace.head?

/-- Continue the polling loop after one body execution (a popped task or a
callback invocation, recorded as `a`), given the resulting queues and the
exception the body threw: no exception continues the `while` through `k`; a
`FutureAlreadyFulfilled` thrown *by value* lands in the
`catch (FutureAlreadyFulfilled)` clause; any other exception object —
including the `FutureAlreadyFulfilled*` pointer that `complete()` throws —
matches no clause and escapes the `noexcept` function. -/
def runStep {τ E : Type} (res : Sched τ × Option (CppExn E)) (a : LAct τ)
    (k : Sched τ → PollExit τ E) : PollExit τ E :=
  match res with
  | (s', none) => (k s').addAct a
  | (_, some CppExn.fafValue) => PollExit.caughtFAF [a]
  | (_, some e) => PollExit.uncaught e [a]

/-- The `try { while (ready.size() == 0) ... } catch (FutureAlreadyFulfilled)`
part of `Scheduler::loop`, fuel-indexed. `rt t s` is the effect of running
the already-popped task `t` on the queues (it returns the new queues and the
exception the task threw, if any); `cb` likewise for `innerCallback()`. Per
iteration: if `tasks` is non-empty, pop the front task and run it, otherwise
invoke the callback once. -/
def pollWhile {τ E : Type} (rt : τ → Sched τ → Sched τ × Option (CppExn E))
    (cb : Sched τ → Sched τ × Option (CppExn E)) : Nat → Sched τ → PollExit τ E
  | 0, _ => PollExit.fuelOut []
  | fuel + 1, s =>
      if s.ready.length = 0 then
        match s.tasks with
        | t :: ts =>
            runStep (rt t { s with tasks := ts }) (LAct.ranTask t) (pollWhile rt cb fuel)
        | [] =>
            runStep (cb s) LAct.ranCallback (pollWhile rt cb fuel)
      else PollExit.normal s []

/-- `ready.front()` / `ready.pop_front()` as the partial operation it is on a
`std::deque`: taking the front of an empty deque is undefined behaviour,
modelled as `none`. -/
def frontPop : List Ctx → Option (Ctx × List Ctx)
  | [] => none
  | c :: rest => some (c, rest)

/-- The complete `Scheduler::loop`: poll, then `exitContext = ready.front();
ready.pop_front(); jump_fcontext(&junkContext, exitContext, 0);`.
`resume c s tr` is the jump to the popped context `c`; `frontOfEmpty` marks
the undefined behaviour of taking the front of an empty `ready`. -/
inductive LoopFinal (τ E : Type) where
  | resume (c : Ctx) (s : Sched τ) (tr : List (LAct τ))
  | frontOfEmpty
  | caughtFAF (tr : List (LAct τ))
  | uncaught (e : CppExn E) (tr : List (LAct τ))
  | fuelOut (tr : List (LAct τ))
deriving DecidableEq, Repr

/-- `Scheduler::loop` assembled from its polling phase and the unguarded
front/pop that follows it. -/
def loopModel {τ E : Type} (rt : τ → Sched τ → Sched τ × Option (CppExn E))
    (cb : Sched τ → Sched τ × Option (CppExn E)) (fuel : Nat) (s : Sched τ) :
    LoopFinal τ E :=
  match pollWhile rt cb fuel s with
  | PollExit.normal s' tr =>
      match frontPop s'.ready with
      | some (c, rest) => LoopFinal.resume c { s' with ready := rest } tr
      | none => LoopFinal.frontOfEmpty
  | PollExit.caughtFAF tr => LoopFinal.caughtFAF tr
  | PollExit.uncaught e tr => LoopFinal.uncaught e tr
  | PollExit.fuelOut tr => LoopFinal.fuelOut tr

theorem addAct_trace {τ E : Type} (a : LAct τ) (p : PollExit τ E) :
    (p.addAct a).trace = a :: p.trace := by
  cases p <;> rfl

theorem addAct_normal {τ E : Type} {a : LAct τ} {p : PollExit τ E} {s' : Sched τ}
    {tr : List (LAct τ)} (h : p.addAct a = PollExit.normal s' tr) :
    ∃ tr', p = PollExit.normal s' tr' := by
  cases p with
  | normal s0 tr0 =>
      simp [PollExit.addAct] at h
      exact ⟨tr0, by rw [h.1]⟩
  | caughtFAF tr0 => simp [PollExit.addAct] at h
  | uncaught e0 tr0 => simp [PollExit.addAct] at h
  | fuelOut tr0 => simp [PollExit.addAct] at h

theorem runStep_eq_normal {τ E : Type} {res : Sched τ × Option (CppExn E)} {a : LAct τ}
    {k : Sched τ → PollExit τ E} {s' : Sched τ} {tr : List (LAct τ)}
    (h : runStep res a k = PollExit.normal s' tr) :
    ∃ s2 tr2, res = (s2, none) ∧ k s2 = PollExit.normal s' tr2 := by
  obtain ⟨s2, ex⟩ := res
  cases ex with
  | none =>
      obtain ⟨tr2, h2⟩ := addAct_normal h
      exact ⟨s2, tr2, rfl, h2⟩
  | some e => cases e <;> simp [runStep] at h

/-- Whenever the polling phase exits normally (the `while` condition turned
false), the `ready` queue is non-empty. -/
theorem pollWhile_normal_ready_ne_nil {τ E : Type}
    {rt : τ → Sched τ → Sched τ × Option (CppExn E)}
    {cb : Sched τ → Sched τ × Option (CppExn E)} :
    ∀ {fuel : Nat} {s s' : Sched τ} {tr : List (LAct τ)},
      pollWhile rt cb fuel s = PollExit.normal s' tr → s'.ready ≠ []
  | 0, s, s', tr, h => by simp [pollWhile] at h
  | fuel + 1, s, s', tr, h => by
      rw [pollWhile] at h
      split at h
      · split at h <;>
          · obtain ⟨s2, tr2, hres, hk⟩ := runStep_eq_normal h
            exact pollWhile_normal_ready_ne_nil hk
      · next hr =>
          cases h
          intro hnil
          exact hr (by rw [hnil]; rfl)

/-- The tasks a trace ran, in order. -/
def ranTasks {τ : Type} : List (LAct τ) → List τ
  | [] => []
  | LAct.ranTask t :: tr => t :: ranTasks tr
  | LAct.ranCallback :: tr => ranTasks tr

/-- `listLe p q`: the list `p` is an initial segment of `q`. -/
def listLe {α : Type} (p q : List α) : Prop := ∃ t, p ++ t = q

theorem listLe_nil {α : Type} (q : List α) : listLe [] q := ⟨q, rfl⟩

theorem listLe_self_append {α : Type} (p t : List α) : listLe p (p ++ t) := ⟨t, rfl⟩

theorem listLe_cons {α : Type} {p q : List α} (a : α) (h : listLe p q) :
    listLe (a :: p) (a :: q) := by
  obtain ⟨t, ht⟩ := h
  exact ⟨t, by rw [List.cons_append, ht]⟩

theorem listLe_trans {α : Type} {p q r : List α} (h1 : listLe p q) (h2 : listLe q r) :
    listLe p r := by
  obtain ⟨t1, ht1⟩ := h1
  obtain ⟨t2, ht2⟩ := h2
  exact ⟨t1 ++ t2, by rw [← List.append_assoc, ht1, ht2]⟩

/-- An initial segment of `a ++ b` either is an initial segment of `a` or
extends `a`. -/
theorem listLe_append_cases {α : Type} :
    ∀ {a : List α} {p b : List α}, listLe p (a ++ b) → listLe p a ∨ listLe a p
  | [], p, b, _ => Or.inr (listLe_nil p)
  | x :: a', [], b, _ => Or.inl (listLe_nil (x :: a'))
  | x :: a', y :: p', b, h => by
      obtain ⟨t, ht⟩ := h
      rw [List.cons_append, List.cons_append] at ht
      have hx : y = x := (List.cons.injEq _ _ _ _ ▸ ht).1
      have ht' : p' ++ t = a' ++ b := (List.cons.injEq _ _ _ _ ▸ ht).2
      rcases listLe_append_cases (a := a') (p := p') (b := b) ⟨t, ht'⟩ with hl | hr
      · exact Or.inl (hx ▸ listLe_cons x hl)
      · exact Or.inr (hx ▸ listLe_cons x hr)

/-- Comparability with a concatenation on the right collapses to
comparability with its left part. -/
theorem listLe_total_of_append {α : Type} {p a b : List α}
    (h : listLe p (a ++ b) ∨ listLe (a ++ b) p) : listLe p a ∨ listLe a p := by
  rcases h with h | h
  · exact listLe_append_cases h
  · exact Or.inr (listLe_trans (listLe_self_append a b) h)

/-- FIFO order of spawned tasks: as long as running a task only ever appends
to the back of the task queue (which is all `Scheduler::spawn` does —
`tasks.push_back`), the tasks a poll run executes are consumed from the
front of the queue, so the executed sequence and the initial queue agree on
their common length: one is an initial segment of the other. -/
theorem pollWhile_fifo {τ E : Type} (rt : τ → Sched τ → Sched τ × Option (CppExn E))
    (cb : Sched τ → Sched τ × Option (CppExn E))
    (hrt : ∀ t u, ∃ ex, ((rt t u).1).tasks = u.tasks ++ ex) :
    ∀ (fuel : Nat) (s : Sched τ),
      listLe (ranTasks (pollWhile rt cb fuel s).trace) s.tasks
        ∨ listLe s.tasks (ranTasks (pollWhile rt cb fuel s).trace)
  | 0, s => Or.inl (listLe_nil s.tasks)
  | fuel + 1, s => by
      rw [pollWhile]
      split
      · split
        · next t ts hts =>
            rw [hts]
            rcases hrun : rt t { s with tasks := ts } with ⟨s2, ex⟩
            cases ex with
            | none =>
                show listLe (ranTasks ((pollWhile rt cb fuel s2).addAct (LAct.ranTask t)).trace)
                      (t :: ts)
                  ∨ listLe (t :: ts)
                      (ranTasks ((pollWhile rt cb fuel s2).addAct (LAct.ranTask t)).trace)
                rw [addAct_trace]
                obtain ⟨ex2, hex⟩ := hrt t { s with tasks := ts }
                rw [hrun] at hex
                have hex2 : s2.tasks = ts ++ ex2 := hex
                have ih := pollWhile_fifo rt cb hrt fuel s2
                rw [hex2] at ih
                rcases listLe_total_of_append ih with hl | hro
                · exact Or.inl (listLe_cons t hl)
                · exact Or.inr (listLe_cons t hro)
            | some e =>
                cases e <;> exact Or.inl ⟨ts, rfl⟩
        · next hts =>
            rw [hts]
            exact Or.inr (listLe_nil _)
      · exact Or.inl (listLe_nil s.tasks)

/-- Scans a completion trace and checks that a state-transition event has
been seen before each `notifyReady` invocation; `seen` records whether a
state transition occurred before the scanned part. This is the order the
specification asserts for completion operations. -/
def stateSeenBeforeEachNotify : Bool → List CEvent → Bool
  | _, [] => true
  | seen, CEvent.notify _ :: tr => seen && stateSeenBeforeEachNotify seen tr
  | _, CEvent.state _ :: tr => stateSeenBeforeEachNotify true tr
  | seen, CEvent.payload :: tr => stateSeenBeforeEachNotify seen tr

/-- C1: at most one completion call among `set_result`/`set_error`/
`set_unexpected` succeeds on a Future; any completion attempted on a Future
that is no longer `UNRESOLVED` raises `AlreadyFulfilled` (the
`throw new FutureAlreadyFulfilled` in `complete()`, which precedes every
assignment) and performs no state transition, leaves the ready queue
untouched and performs no observable step — so the terminal state and
payload remain those of the first successful call: after `set_result v1`
then `set_result v2`, the stored value is still `v1`. -/
theorem c1_single_completion {V E : Type} (r r2 ws : List Ctx) (v1 v2 : V) (e : E)
    (f : FState V E) (hf : ∀ ws', f ≠ FState.unresolved ws') :
    setResult r f v2 = ⟨f, r, [], some CppExn.fafPtr⟩ ∧
    setError r f e = ⟨f, r, [], some CppExn.fafPtr⟩ ∧
    setUnexpected r f = ⟨f, r, [], some CppExn.fafPtr⟩ ∧
    (setResult r (FState.unresolved ws : FState V E) v1).fut = FState.success v1 ∧
    (setResult r (FState.unresolved ws : FState V E) v1).thrown = none ∧
    setResult r2 (FState.success v1 : FState V E) v2
      = ⟨FState.success v1, r2, [], some CppExn.fafPtr⟩ := by
  refine ⟨?_, ?_, ?_, rfl, rfl, rfl⟩
  all_goals
    cases f with
    | unresolved ws' => exact absurd rfl (hf ws')
    | success v => rfl
    | failure e' => rfl
    | unexpected => rfl

/-- Witness for C1: on a Future already holding `SUCCESS 1`, a second
`set_result 2` raises `AlreadyFulfilled` and the stored value stays `1`. -/
theorem c1_witness :
    setResult [] (FState.success (1 : Nat) : FState Nat Unit) 2
        = ⟨FState.success 1, [], [], some CppExn.fafPtr⟩ ∧
    (setResult [] (FState.unresolved [] : FState Nat Unit) 1).fut = FState.success 1 :=
  ⟨(c1_single_completion [] [] [] 1 2 () (FState.success 1)
      (fun _ h => FState.noConfusion h)).1,
   (c1_single_completion [] [] [] 1 2 () (FState.success 1)
      (fun _ h => FState.noConfusion h)).2.2.2.1⟩

/-- C2 counterexample: the claim says the spawned closure completes the
Future with `UNEXPECTED` whenever `f` raises anything outside `E`. A
`FutureAlreadyFulfilled` thrown by value is outside the declared error type
here, yet the closure's first catch clause rethrows it and the Future stays
`UNRESOLVED` — not `UNEXPECTED`. -/
theorem c2_counterexample :
    (spawnClosure (TaskOutcome.raise CppExn.fafValue) []
        (FState.unresolved [] : FState Nat Unit)).fut = FState.unresolved [] ∧
    (spawnClosure (TaskOutcome.raise CppExn.fafValue) []
        (FState.unresolved [] : FState Nat Unit)).fut ≠ FState.unexpected ∧
    (spawnClosure (TaskOutcome.raise CppExn.fafValue) []
        (FState.unresolved [] : FState Nat Unit)).thrown = some CppExn.fafValue :=
  ⟨rfl, by decide, rfl⟩

/-- C2 (amended): the closure spawned for `f` completes the (still
unresolved) Future with `SUCCESS` holding `f`'s return value on normal
return, `FAILURE e` when `f` raises `e` of the declared type `E`, and
`UNEXPECTED` when `f` raises anything else — except that a
`FutureAlreadyFulfilled` thrown by value is rethrown and leaves the Future
unresolved (thrown in the library's pointer form it falls to the catch-all
and is likewise recorded as `UNEXPECTED`); the unit overload completes with
payloadless `SUCCESS` on normal return. -/
theorem c2_amended {V E : Type} (r ws : List Ctx) (v : V) (e : E) :
    (spawnClosure (TaskOutcome.ret v) r (FState.unresolved ws : FState V E)).fut
        = FState.success v ∧
    (spawnClosure (TaskOutcome.ret v) r (FState.unresolved ws : FState V E)).thrown = none ∧
    (spawnClosure (TaskOutcome.raise (CppExn.declared e)) r
        (FState.unresolved ws : FState V E)).fut = FState.failure e ∧
    (spawnClosure (TaskOutcome.raise (CppExn.declared e)) r
        (FState.unresolved ws : FState V E)).thrown = none ∧
    (spawnClosure (TaskOutcome.raise CppExn.other) r
        (FState.unresolved ws : FState V E)).fut = FState.unexpected ∧
    (spawnClosure (TaskOutcome.raise CppExn.fafPtr) r
        (FState.unresolved ws : FState V E)).fut = FState.unexpected ∧
    spawnClosure (TaskOutcome.raise CppExn.fafValue) r
        (FState.unresolved ws : FState V E)
      = ⟨FState.unresolved ws, r, [], some CppExn.fafValue⟩ ∧
    (spawnClosureVoid (TaskOutcome.ret ()) r (FState.unresolved ws : FState Unit E)).fut
        = FState.success () ∧
    (spawnClosureVoid (TaskOutcome.ret ()) r
        (FState.unresolved ws : FState Unit E)).thrown = none :=
  ⟨rfl, rfl, rfl, rfl, rfl, rfl, rfl, rfl, rfl⟩

/-- C3: `await` returns the stored value on `SUCCESS`, raises the stored
error on `FAILURE`, and on `UNRESOLVED` links a fresh waiter node in at the
head of the waiter list, suspends (modelled by the environment `env`, the
effect of `scheduler.waitUntilReady` on the Future while the caller is
blocked), and on resumption re-dispatches by invoking `await` again on the
state found then. The `Future<void,E>` specialization is the `V = Unit`
instance of the same dispatch. -/
theorem c3_await_dispatch {V E : Type} (env : FState V E → FState V E)
    (fuel : Nat) (c : Ctx) (v : V) (e : E) (ws : List Ctx) :
    await env (fuel + 1) c (FState.success v) = some (AwaitOutcome.val v) ∧
    await env (fuel + 1) c (FState.failure e) = some (AwaitOutcome.err e) ∧
    awaitDispatch c (FState.unresolved ws : FState V E)
        = Sum.inr (FState.unresolved (c :: ws)) ∧
    await env (fuel + 1) c (FState.unresolved ws)
        = await env fuel c (env (FState.unresolved (c :: ws))) :=
  ⟨rfl, rfl, rfl, rfl⟩

/-- C4 counterexample: on a Future with one waiter, `setResult` produces the
event trace `[notify, state, payload]` — `scheduler.notifyReady` is invoked
(from inside `complete()`) *before* the state transition and the payload
install, so the claimed order "state transition and payload installation
observable before notify_ready" is false. -/
theorem c4_counterexample :
    (setResult [] (FState.unresolved [0] : FState Nat Unit) 1).trace
        = [CEvent.notify [0], CEvent.state STag.successT, CEvent.payload] ∧
    stateSeenBeforeEachNotify false
        ((setResult [] (FState.unresolved [0] : FState Nat Unit) 1).trace) = false :=
  ⟨rfl, rfl⟩

/-- C4 (amended): in every completion operation on an unresolved Future with
waiters, `notify_ready` is invoked on the waiter-list head first — from
inside `complete()` — and only then are the state transition and the payload
installed. Since `notifyReady` merely appends the waiters' contexts to the
scheduler's ready queue and transfers no control, and the operation has
installed the terminal state and payload by the time it returns, a waiter
resumed afterwards that re-enters `await` dispatches on the final state. -/
theorem c4_amended {V E : Type} (r ws : List Ctx) (w : Ctx) (v : V) (e : E) (c : Ctx) :
    (setResult r (FState.unresolved (w :: ws) : FState V E) v).trace
        = [CEvent.notify (w :: ws), CEvent.state STag.successT, CEvent.payload] ∧
    (setError r (FState.unresolved (w :: ws) : FState V E) e).trace
        = [CEvent.notify (w :: ws), CEvent.state STag.failureT, CEvent.payload] ∧
    (setUnexpected r (FState.unresolved (w :: ws) : FState V E)).trace
        = [CEvent.notify (w :: ws), CEvent.state STag.unexpectedT] ∧
    (setResult r (FState.unresolved (w :: ws) : FState V E) v).fut = FState.success v ∧
    awaitDispatch c (FState.success v : FState V E) = Sum.inl (AwaitOutcome.val v) ∧
    (setError r (FState.unresolved (w :: ws) : FState V E) e).fut = FState.failure e ∧
    awaitDispatch c (FState.failure e : FState V E) = Sum.inl (AwaitOutcome.err e) ∧
    (setUnexpected r (FState.unresolved (w :: ws) : FState V E)).fut = FState.unexpected ∧
    awaitDispatch c (FState.unexpected : FState V E)
        = Sum.inl AwaitOutcome.unexpectedCall :=
  ⟨rfl, rfl, rfl, rfl, rfl, rfl, rfl, rfl, rfl⟩

/-- C5 (evaluation at the failing input): a task that completes an
already-fulfilled Future raises `AlreadyFulfilled` exactly as
`FutureBase::complete` does — `throw new FutureAlreadyFulfilled`, an
exception of pointer type. The polling loop's
`catch (FutureAlreadyFulfilled)` clause does not match a pointer, so the
loop does **not** catch it: the exception escapes the `try` and the
`noexcept` on `loop()` terminates the process without the diagnostic,
contradicting the claim that the loop catches `AlreadyFulfilled` and
terminates with a diagnostic. -/
theorem c5_eval :
    (setResult [] ((setResult [] (FState.unresolved [] : FState Nat Unit) 1).fut) 2).thrown
        = some CppExn.fafPtr ∧
    pollWhile
        (fun _ s =>
          (s, (setResult [] ((setResult [] (FState.unresolved [] : FState Nat Unit) 1).fut)
                2).thrown))
        (fun s => (s, none)) 1 ⟨[], [()]⟩
      = PollExit.uncaught CppExn.fafPtr [LAct.ranTask ()] ∧
    (∀ tr, pollWhile
        (fun _ s =>
          (s, (setResult [] ((setResult [] (FState.unresolved [] : FState Nat Unit) 1).fut)
                2).thrown))
        (fun s => (s, none)) 1 ⟨[], [()]⟩
      ≠ PollExit.caughtFAF tr) := by
  refine ⟨rfl, rfl, ?_⟩
  intro tr h
  rw [show pollWhile
        (fun _ s =>
          (s, (setResult [] ((setResult [] (FState.unresolved [] : FState Nat Unit) 1).fut)
                2).thrown))
        (fun s => (s, none)) 1 ⟨[], [()]⟩
      = PollExit.uncaught CppExn.fafPtr [LAct.ranTask ()] from rfl] at h
  exact PollExit.noConfusion h

/-- C6 (evaluation at the failing input): a spawned task that raises
`AlreadyFulfilled` the way the library itself raises it (the
`FutureAlreadyFulfilled*` pointer thrown by `complete()`) is **not**
rethrown by the closure: the pointer matches neither
`catch (FutureAlreadyFulfilled faf)` nor `catch (E e)`, falls into
`catch (...)`, and is swallowed into the Future as `UNEXPECTED` —
contradicting the claim. Only a `FutureAlreadyFulfilled` thrown by value is
rethrown. -/
theorem c6_eval :
    spawnClosure (TaskOutcome.raise CppExn.fafPtr) []
        (FState.unresolved [] : FState Nat Unit)
      = ⟨FState.unexpected, [], [CEvent.state STag.unexpectedT], none⟩ ∧
    spawnClosure (TaskOutcome.raise CppExn.fafValue) []
        (FState.unresolved [] : FState Nat Unit)
      = ⟨FState.unresolved [], [], [], some CppExn.fafValue⟩ :=
  ⟨rfl, rfl⟩

theorem runStep_firstAct {τ E : Type} (res : Sched τ × Option (CppExn E)) (a : LAct τ)
    (k : Sched τ → PollExit τ E) : (runStep res a k).firstAct = some a := by
  obtain ⟨s2, ex⟩ := res
  cases ex with
  | none => simp [runStep, PollExit.firstAct, addAct_trace]
  | some e => cases e <;> rfl

/-- C7: while `ready` is empty, an iteration of the resolution loop pops and
runs the front task when the task queue is non-empty (its first recorded
action is that task — the progress step is never invoked while a task is
pending), and otherwise invokes the progress-step callback exactly once (one
`runStep` per iteration); and provided running a task only appends to the
back of the task queue (all `spawn` does is `tasks.push_back`), the executed
tasks are consumed from the front of the queue, giving FIFO order: the
executed sequence and the initial queue agree on their common length. -/
theorem c7_loop_fifo {τ E : Type} (rt : τ → Sched τ → Sched τ × Option (CppExn E))
    (cb : Sched τ → Sched τ × Option (CppExn E))
    (hrt : ∀ t u, ∃ ex, ((rt t u).1).tasks = u.tasks ++ ex) :
    (∀ (fuel : Nat) (t : τ) (ts : List τ),
        (pollWhile rt cb (fuel + 1) ⟨[], t :: ts⟩).firstAct = some (LAct.ranTask t)) ∧
    (∀ fuel : Nat,
        (pollWhile rt cb (fuel + 1) (⟨[], []⟩ : Sched τ)).firstAct
          = some LAct.ranCallback) ∧
    (∀ (fuel : Nat) (t : τ) (ts : List τ),
        pollWhile rt cb (fuel + 1) ⟨[], t :: ts⟩
          = runStep (rt t ⟨[], ts⟩) (LAct.ranTask t) (pollWhile rt cb fuel)) ∧
    (∀ fuel : Nat,
        pollWhile rt cb (fuel + 1) (⟨[], []⟩ : Sched τ)
          = runStep (cb ⟨[], []⟩) LAct.ranCallback (pollWhile rt cb fuel)) ∧
    (∀ (fuel : Nat) (s : Sched τ),
        listLe (ranTasks (pollWhile rt cb fuel s).trace) s.tasks
          ∨ listLe s.tasks (ranTasks (pollWhile rt cb fuel s).trace)) := by
  refine ⟨?_, ?_, fun fuel t ts => rfl, fun fuel => rfl, pollWhile_fifo rt cb hrt⟩
  · intro fuel t ts
    exact runStep_firstAct (rt t ⟨[], ts⟩) (LAct.ranTask t) (pollWhile rt cb fuel)
  · intro fuel
    exact runStep_firstAct (cb ⟨[], []⟩) LAct.ranCallback (pollWhile rt cb fuel)

/-- Concrete task semantics for the C7 witness: running task `0` pushes a
ready context; no task ever enqueues another task. -/
def rtW : Nat → Sched Nat → Sched Nat × Option (CppExn Unit) :=
  fun t s => (if t = 0 then { s with ready := s.ready ++ [9] } else s, none)

/-- Concrete progress step for the C7 witness: makes context `7` ready. -/
def cbW : Sched Nat → Sched Nat × Option (CppExn Unit) :=
  fun s => ({ s with ready := s.ready ++ [7] }, none)

/-- Witness for C7 at the concrete semantics `rtW`/`cbW`. -/
theorem c7_witness :
    (∀ t u, ∃ ex, ((rtW t u).1).tasks = u.tasks ++ ex) ∧
    (pollWhile rtW cbW 2 ⟨[], [5]⟩).firstAct = some (LAct.ranTask 5) ∧
    (pollWhile rtW cbW 2 (⟨[], []⟩ : Sched Nat)).firstAct = some LAct.ranCallback ∧
    (listLe (ranTasks (pollWhile rtW cbW 2 ⟨[], [5]⟩).trace) [5]
      ∨ listLe [5] (ranTasks (pollWhile rtW cbW 2 ⟨[], [5]⟩).trace)) := by
  have hrt : ∀ t u, ∃ ex, ((rtW t u).1).tasks = u.tasks ++ ex := by
    intro t u
    refine ⟨[], ?_⟩
    by_cases h : t = 0 <;> simp [rtW, h]
  refine ⟨hrt, ?_, ?_, ?_⟩
  · exact (c7_loop_fifo rtW cbW hrt).1 1 5 []
  · exact (c7_loop_fifo rtW cbW hrt).2.1 1
  · exact (c7_loop_fifo rtW cbW hrt).2.2.2.2 2 ⟨[], [5]⟩

/-- C8: `await` inserts each waiter node at the head of the waiter list, so
waiters suspending in order A1…An (the list `as`) sit in the list as
`as.reverse` = [An,…,A1]; a completion hands exactly that snapshot to
`notifyReady`, which appends each node's context to `ready` in list order
without freeing the nodes; the resolution loop pops resumption candidates
from the front of `ready` — resumptions therefore happen in reverse-suspend
order An…A1. -/
theorem c8_reverse_resume {V E τ : Type} (as ws r : List Ctx) (v : V) (c : Ctx)
    (rt : τ → Sched τ → Sched τ × Option (CppExn E))
    (cb : Sched τ → Sched τ × Option (CppExn E)) (fuel : Nat)
    (x : Ctx) (rest : List Ctx) (ts : List τ) :
    awaitDispatch c (FState.unresolved ws : FState V E)
        = Sum.inr (FState.unresolved (c :: ws)) ∧
    suspendAll as (FState.unresolved [] : FState V E)
        = FState.unresolved as.reverse ∧
    (setResult r (FState.unresolved as.reverse : FState V E) v).ready
        = r ++ as.reverse ∧
    (∀ l q : List Ctx, notifyReady q l = q ++ l) ∧
    loopModel rt cb (fuel + 1) ⟨x :: rest, ts⟩
        = LoopFinal.resume x ⟨rest, ts⟩ [] := by
  refine ⟨rfl, ?_, setResult_unresolved_ready r as.reverse v,
          fun l q => notifyReady_eq_append l q, rfl⟩
  have h := suspendAll_unresolved (V := V) (E := E) as []
  rw [h]
  simp

/-- C9: every completion operation on an unresolved Future hands the entire
waiter list to the scheduler's ready queue, and the resulting Future — like
every non-`UNRESOLVED` Future — has an empty waiter list: terminal states
carry no waiter node (the `cons` union member is dead outside
`UNRESOLVED`). -/
theorem c9_waiters_cleared {V E : Type} (r ws : List Ctx) (v : V) (e : E) :
    futWaiters (setResult r (FState.unresolved ws : FState V E) v).fut = [] ∧
    (setResult r (FState.unresolved ws : FState V E) v).ready = r ++ ws ∧
    futWaiters (setError r (FState.unresolved ws : FState V E) e).fut = [] ∧
    (setError r (FState.unresolved ws : FState V E) e).ready = r ++ ws ∧
    futWaiters (setUnexpected r (FState.unresolved ws : FState V E)).fut = [] ∧
    (setUnexpected r (FState.unresolved ws : FState V E)).ready = r ++ ws ∧
    futWaiters (setResultVoid r (FState.unresolved ws : FState Unit E)).fut = [] ∧
    (setResultVoid r (FState.unresolved ws : FState Unit E)).ready = r ++ ws ∧
    futWaiters (FState.success v : FState V E) = [] ∧
    futWaiters (FState.failure e : FState V E) = [] ∧
    futWaiters (FState.unexpected : FState V E) = [] :=
  ⟨rfl, setResult_unresolved_ready r ws v, rfl, setError_unresolved_ready r ws e,
   rfl, setUnexpected_unresolved_ready r ws, rfl, setResultVoid_unresolved_ready r ws,
   rfl, rfl, rfl⟩

/-- C10: the unguarded `ready.front()` / `ready.pop_front()` after the
polling loop run only with a non-empty ready queue: a normal exit of the
`while` requires `ready.size() != 0`, and every exceptional exit terminates
the process before reaching them — so taking the front of an empty ready
queue is unreachable, for every task semantics, callback, fuel and start
state. -/
theorem c10_front_nonempty {τ E : Type}
    (rt : τ → Sched τ → Sched τ × Option (CppExn E))
    (cb : Sched τ → Sched τ × Option (CppExn E)) (fuel : Nat) (s : Sched τ) :
    loopModel rt cb fuel s ≠ LoopFinal.frontOfEmpty := by
  intro h
  rw [loopModel] at h
  rcases hp : pollWhile rt cb fuel s with ⟨s', tr⟩ | ⟨tr⟩ | ⟨e, tr⟩ | ⟨tr⟩ <;>
    rw [hp] at h
  · have hne := pollWhile_normal_ready_ne_nil hp
    have h2 : (match frontPop s'.ready with
               | some (c, rest) => LoopFinal.resume c { s' with ready := rest } tr
               | none => (LoopFinal.frontOfEmpty : LoopFinal τ E))
        = LoopFinal.frontOfEmpty := h
    rcases hs : s'.ready with _ | ⟨x, rest⟩
    · exact hne hs
    · rw [hs] at h2
      exact LoopFinal.noConfusion h2
  · exact LoopFinal.noConfusion h
  · exact LoopFinal.noConfusion h
  · exact LoopFinal.noConfusion h

end CoopFuture
